import Mathlib

/-!
# auto_kbbl: keyboard-backlight auto-dimmer

A shallow embedding of `src/auto_kbbl.c` and theorems about it.

C `int` is a 32-bit two's-complement integer, `long` and `time_t` are 64-bit;
values are carried as `Int` and wrapped explicitly where the C code can
overflow.  Calls into the operating system (getopt_long, the device scans,
fopen, open, poll, read, time) are represented by the answers they give, which
are fields of `Env` and `Tick`; diagnostic output is left out.
-/

namespace AutoKbbl

/-! ## Constants of the source and of the headers it includes -/

def DEFAULT_BACKLIGHT_TIMEOUT : Int := 2
def DEFAULT_BRIGHTNESS_ON : Int := -1
def DEFAULT_INITIAL_OFF : Bool := false
def KBBL_BUFFER_SIZE : Nat := 4096

/-- Event class of key events, from linux/input-event-codes.h. -/
def EV_KEY : Nat := 1
/-- Readable-data bit of `revents`, from poll.h. -/
def POLLIN : Nat := 1
/-- Interrupted system call, from errno.h. -/
def EINTR : Int := 4
/-- Size in bytes of `struct input_event` (two 64-bit time fields, two 16-bit
fields, one 32-bit field). -/
def sizeof_ev : Int := 24

/-! ## Machine integers -/

/-- Value of a mathematical integer stored in a 32-bit `int`. -/
def wrap32 (x : Int) : Int := (x + 2 ^ 31) % 2 ^ 32 - 2 ^ 31

/-- Saturation of `strtol` to the range of a 64-bit `long`. -/
def clampLong (x : Int) : Int :=
  if x > 2 ^ 63 - 1 then 2 ^ 63 - 1 else if x < -(2 ^ 63) then -(2 ^ 63) else x

/-- C integer division, which truncates toward zero. -/
def cdiv (a b : Int) : Int := Int.tdiv a b

/-! ## Decimal conversion used by `atoi` and by `fscanf("%d")` -/

def isspace (c : Char) : Bool :=
  c == ' ' || c == '\t' || c == '\n' || c == '\x0b' || c == '\x0c' || c == '\r'

def isdigit (c : Char) : Bool := '0' ≤ c && c ≤ '9'

def skipSpace : List Char → List Char
  | [] => []
  | c :: cs => if isspace c then skipSpace cs else c :: cs

/-- Accumulates the leading decimal digits; `seen` tells whether there was one. -/
def readDigits : Nat → Bool → List Char → Nat × Bool
  | acc, seen, [] => (acc, seen)
  | acc, seen, c :: cs =>
    if isdigit c then readDigits (acc * 10 + (c.toNat - '0'.toNat)) true cs
    else (acc, seen)

/-- The subject sequence of `strtol` in base 10: white space, an optional sign,
then digits.  `none` when there is no digit, otherwise the value as a `long`. -/
def strtol10 (s : List Char) : Option Int :=
  let body (neg : Bool) (cs : List Char) : Option Int :=
    match readDigits 0 false cs with
    | (_, false) => none
    | (n, true) => some (clampLong (if neg then -(n : Int) else (n : Int)))
  match skipSpace s with
  | '-' :: cs => body true cs
  | '+' :: cs => body false cs
  | cs => body false cs

/-- The library function `atoi(s)`, which is `(int) strtol(s, NULL, 10)`: 0 when
nothing converts. -/
def atoi (s : List Char) : Int := wrap32 ((strtol10 s).getD 0)

/-- The test `strchr(s, '%')`: whether a percent sign occurs in `s`. -/
def hasPercent (s : List Char) : Bool := s.contains '%'

/-! ## Brightness controller -/

/-- The call `fscanf(f, "%d", &max_val)` on a file with the given content: the
`int` it stores when it returns 1, `none` when it returns 0 or EOF. -/
def fscanf_d (content : List Char) : Option Int := (strtol10 content).map wrap32

/-- The function `get_led_max_brightness`; the file is `none` when `fopen`
fails, otherwise its content. -/
def get_led_max_brightness (file : Option (List Char)) : Int :=
  match file with
  | none => 1
  | some content =>
    let max_val : Int :=
      match fscanf_d content with
      | some v => v
      | none => 1
    if max_val ≤ 0 then 1 else max_val

/-- The file-scope configuration variables. `initial_off_mode` is a C `int`
that only ever holds 0 or 1. -/
structure Globals where
  verbose_mode : Int
  backlight_timeout : Int
  desired_brightness_on : Int
  initial_off_mode : Bool
  input_dev_path : List Char
  user_led_name_fragment : List Char
  deriving DecidableEq

/-- The initializers of the file-scope variables. -/
def initialGlobals : Globals :=
  { verbose_mode := 0
    backlight_timeout := DEFAULT_BACKLIGHT_TIMEOUT
    desired_brightness_on := DEFAULT_BRIGHTNESS_ON
    initial_off_mode := DEFAULT_INITIAL_OFF
    input_dev_path := []
    user_led_name_fragment := [] }

/-- One successful return of `getopt_long`: the option character and, for the
options that take one, `optarg`.  `unknown` is the return value `'?'`. -/
inductive Opt where
  | help
  | verbose
  | timeout (optarg : List Char)
  | brightness (optarg : List Char)
  | device (optarg : List Char)
  | led (optarg : List Char)
  | initialOff
  | unknown
  deriving DecidableEq

/-- The `switch (opt)` of main: `.error status` is `return status`. -/
def optionCase (g : Globals) : Opt → Except Int Globals
  | .help => .error 0
  | .verbose => .ok { g with verbose_mode := 1 }
  | .timeout optarg =>
    let backlight_timeout := atoi optarg
    if backlight_timeout < 0 then
      .ok { g with backlight_timeout := DEFAULT_BACKLIGHT_TIMEOUT }
    else
      .ok { g with backlight_timeout := backlight_timeout }
  | .brightness optarg =>
    -- desired_brightness_on = -2, then every branch below assigns it again
    let g := { g with desired_brightness_on := -2 }
    if hasPercent optarg then
      let percent := atoi optarg
      if percent ≥ 0 ∧ percent ≤ 100 then
        .ok { g with desired_brightness_on := percent }
      else
        .ok { g with desired_brightness_on := DEFAULT_BRIGHTNESS_ON }
    else
      let g := { g with desired_brightness_on := atoi optarg }
      if g.desired_brightness_on < 0 then
        .ok { g with desired_brightness_on := DEFAULT_BRIGHTNESS_ON }
      else
        .ok g
  | .device optarg => .ok { g with input_dev_path := optarg.take (KBBL_BUFFER_SIZE - 1) }
  | .led optarg => .ok { g with user_led_name_fragment := optarg.take (KBBL_BUFFER_SIZE - 1) }
  | .initialOff => .ok { g with initial_off_mode := true }
  | .unknown => .error 1

/-- The option loop of main over the successive returns of `getopt_long`. -/
def parseOptions (g : Globals) : List Opt → Except Int Globals
  | [] => .ok g
  | o :: os =>
    match optionCase g o with
    | .error status => .error status
    | .ok g1 => parseOptions g1 os

/-- The block `Adjust brightness_on based on user input` of main; `prev_arg` is
`argv[optind-1]`.  The product is computed in `int`. -/
def resolveBrightnessOn (desired_brightness_on : Int) (prev_arg : List Char)
    (max_brightness : Int) : Int :=
  let brightness_on := max_brightness
  if desired_brightness_on = -2 then
    let brightness_on :=
      if hasPercent prev_arg then cdiv (wrap32 (max_brightness * atoi prev_arg)) 100
      else atoi prev_arg
    let brightness_on := if brightness_on > max_brightness then max_brightness else brightness_on
    if brightness_on < 0 then 0 else brightness_on
  else
    brightness_on

def brightness_off : Int := 0

/-! ## Control loop -/

/-- A record of `struct input_event`; `tv_sec` and `tv_usec` are its `time`. -/
structure input_event where
  tv_sec : Int
  tv_usec : Int
  type : Nat
  code : Nat
  value : Int
  deriving DecidableEq

/-- What the operating system answers during one pass through the loop body:
the return value of `poll` and `errno` after it, the reading of `time(NULL)`,
`fds[0].revents`, and for the `read` its return value, `errno` and the record
it stored in `ev`. -/
structure Tick where
  poll_ret : Int
  poll_errno : Int
  current_time : Int
  revents : Nat
  bytes_read : Int
  read_errno : Int
  ev : input_event
  deriving DecidableEq

/-- The two loop variables. `current_brightness_is_on` is a C `int` that only
ever holds 0 or 1. -/
structure LoopState where
  current_brightness_is_on : Bool
  last_key_activity_time : Int
  deriving DecidableEq

/-- How a pass through the loop body ends: at its closing brace, by `continue`
or by `break`. -/
inductive Ctl where
  | next
  | cont
  | brk
  deriving DecidableEq

/-- Initial state and initial brightness write of main. -/
def initialState (initial_off_mode : Bool) (brightness_on : Int) (start_time : Int) :
    LoopState × List Int :=
  if initial_off_mode then
    ({ current_brightness_is_on := false, last_key_activity_time := start_time }, [brightness_off])
  else
    ({ current_brightness_is_on := true, last_key_activity_time := start_time }, [brightness_on])

/-- The branch `if (bytes_read == sizeof(ev)) ... else if (bytes_read > 0)` of
the loop: the new state and the values passed to `set_led_brightness`. -/
def processRead (brightness_on : Int) (s : LoopState) (bytes_read : Int) (ev : input_event)
    (current_time : Int) : LoopState × List Int :=
  if bytes_read = sizeof_ev then
    if ev.type = EV_KEY then
      if ev.value = 1 ∨ ev.value = 2 then
        if !s.current_brightness_is_on then
          ({ current_brightness_is_on := true, last_key_activity_time := current_time },
            [brightness_on])
        else
          ({ s with last_key_activity_time := current_time }, [])
      else
        ({ s with last_key_activity_time := current_time }, [])
    else (s, [])
  else (s, [])

/-- The block `if (poll_ret > 0)` of the loop. -/
def readStep (brightness_on : Int) (s : LoopState) (t : Tick) : Ctl × LoopState × List Int :=
  if t.poll_ret > 0 then
    if t.revents &&& POLLIN ≠ 0 then
      if t.bytes_read < 0 then
        if t.read_errno = EINTR then (.cont, s, []) else (.brk, s, [])
      else if t.bytes_read = 0 then (.brk, s, [])
      else
        let r := processRead brightness_on s t.bytes_read t.ev t.current_time
        (.next, r.1, r.2)
    else (.next, s, [])
  else (.next, s, [])

/-- The idle check that closes the loop body. -/
def idleCheck (backlight_timeout : Int) (s : LoopState) (current_time : Int) :
    LoopState × List Int :=
  if s.current_brightness_is_on then
    if current_time - s.last_key_activity_time ≥ backlight_timeout then
      ({ s with current_brightness_is_on := false }, [brightness_off])
    else (s, [])
  else (s, [])

/-- One pass through the body of `while (1)`. -/
def loopBody (backlight_timeout brightness_on : Int) (s : LoopState) (t : Tick) :
    Ctl × LoopState × List Int :=
  if t.poll_ret < 0 then
    if t.poll_errno = EINTR then (.cont, s, []) else (.brk, s, [])
  else
    match readStep brightness_on s t with
    | (.next, s1, w1) =>
      let r := idleCheck backlight_timeout s1 t.current_time
      (.next, r.1, w1 ++ r.2)
    | r => r

/-- Result of running the loop over finitely many passes: `exited` tells
whether a `break` was reached; otherwise the loop is still running. -/
structure LoopRun where
  state : LoopState
  writes : List Int
  exited : Bool
  deriving DecidableEq

/-- The loop `while (1)` over the successive answers of the operating system. -/
def runLoop (backlight_timeout brightness_on : Int) : List Tick → LoopState → LoopRun
  | [], s => { state := s, writes := [], exited := false }
  | t :: ts, s =>
    match loopBody backlight_timeout brightness_on s t with
    | (.brk, s1, w) => { state := s1, writes := w, exited := true }
    | (_, s1, w) =>
      let r := runLoop backlight_timeout brightness_on ts s1
      { r with writes := w ++ r.writes }

/-! ## The program -/

/-- Everything main asks of its surroundings. `opts` are the successive returns
of `getopt_long` and `prev_arg` is `argv[optind-1]` after the last of them;
`keyboard_found` and `led_found` tell whether `find_keyboard_device` and
`find_led_brightness_path` returned 0; `max_brightness_file` is the content of
the max_brightness file (`none` when it cannot be opened); `open_ok` tells
whether `open(input_dev_path, O_RDONLY)` succeeded; `start_time` is the first
reading of `time(NULL)`. -/
structure Env where
  opts : List Opt
  prev_arg : List Char
  keyboard_found : Bool
  led_found : Bool
  max_brightness_file : Option (List Char)
  open_ok : Bool
  start_time : Int
  ticks : List Tick
  deriving DecidableEq

/-- What main has computed when it reaches the open of the input device. -/
structure Setup where
  g : Globals
  max_brightness : Int
  brightness_on : Int
  deriving DecidableEq

/-- Main from its first line to the computation of `brightness_on`;
`.error status` is `return status`. -/
def setup (env : Env) : Except Int Setup :=
  match parseOptions initialGlobals env.opts with
  | .error status => .error status
  | .ok g =>
    if !env.keyboard_found then .error 1
    else if !env.led_found then .error 1
    else
      let max_brightness := get_led_max_brightness env.max_brightness_file
      .ok { g := g
            max_brightness := max_brightness
            brightness_on := resolveBrightnessOn g.desired_brightness_on env.prev_arg max_brightness }

/-- An observed run of the program: the values passed to `set_led_brightness`
in order, and the exit status (`none` while the loop is still running). -/
structure Run where
  writes : List Int
  exit : Option Int
  deriving DecidableEq

/-- The function `main`. -/
def main (env : Env) : Run :=
  match setup env with
  | .error status => { writes := [], exit := some status }
  | .ok su =>
    if !env.open_ok then { writes := [], exit := some 1 }
    else
      let init := initialState su.g.initial_off_mode su.brightness_on env.start_time
      let r := runLoop su.g.backlight_timeout su.brightness_on env.ticks init.1
      if r.exited then
        { writes := init.2 ++ r.writes ++ [brightness_off], exit := some 0 }
      else
        { writes := init.2 ++ r.writes, exit := none }

/-- The value of `brightness_on` in main, when main gets that far. -/
def mainBrightnessOn (env : Env) : Option Int :=
  match setup env with
  | .error _ => none
  | .ok su => some su.brightness_on

/-! ## Vocabulary of the properties -/

/-- The pass executes the `read`: `poll` reported a readable handle. -/
def Tick.reads (t : Tick) : Bool := decide (t.poll_ret > 0 ∧ t.revents &&& POLLIN ≠ 0)

/-- The wait failed with an error other than an interrupt. -/
def Tick.pollError (t : Tick) : Bool := decide (t.poll_ret < 0 ∧ t.poll_errno ≠ EINTR)

/-- The read failed with an error other than an interrupt. -/
def Tick.readError (t : Tick) : Bool :=
  t.reads && decide (t.bytes_read < 0 ∧ t.read_errno ≠ EINTR)

/-- The read returned zero bytes. -/
def Tick.eof (t : Tick) : Bool := t.reads && decide (t.bytes_read = 0)

/-- The pass reads a full-size record of class key. -/
def Tick.keyRecord (t : Tick) : Bool :=
  t.reads && decide (t.bytes_read = sizeof_ev ∧ t.ev.type = EV_KEY)

/-- The pass reads a qualifying key event: full size, class key, value 1 or 2. -/
def Tick.qualifying (t : Tick) : Bool :=
  t.keyRecord && decide (t.ev.value = 1 ∨ t.ev.value = 2)

/-- The pass gets to the idle check: the wait did not fail and the read, if
any, returned at least one byte. -/
def Tick.reachesIdleCheck (t : Tick) : Bool :=
  decide (0 ≤ t.poll_ret) && (!t.reads || decide (0 < t.bytes_read))

/-- An environment in which main gets as far as the loop: one brightness option
`arg`, the devices found, the given max_brightness content. -/
def envWith (arg : List Char) (max_content : List Char) (ticks : List Tick) : Env :=
  { opts := [Opt.brightness arg]
    prev_arg := arg
    keyboard_found := true
    led_found := true
    max_brightness_file := some max_content
    open_ok := true
    start_time := 0
    ticks := ticks }

/-! ## Sample inputs -/

/-- A key press followed by an idle pass three seconds later. -/
def pressThenIdle : List Tick :=
  [ { poll_ret := 1, poll_errno := 0, current_time := 10, revents := 1, bytes_read := 24,
      read_errno := 0, ev := { tv_sec := 10, tv_usec := 0, type := 1, code := 30, value := 1 } },
    { poll_ret := 0, poll_errno := 0, current_time := 13, revents := 0, bytes_read := 0,
      read_errno := 0, ev := { tv_sec := 0, tv_usec := 0, type := 0, code := 0, value := 0 } } ]

/-- A wait that fails with EIO. -/
def pollErrorTick : Tick :=
  { poll_ret := -1, poll_errno := 5, current_time := 12, revents := 0, bytes_read := 0,
    read_errno := 0, ev := { tv_sec := 0, tv_usec := 0, type := 0, code := 0, value := 0 } }

/-- A read that fails with ENODEV. -/
def readErrorTick : Tick :=
  { poll_ret := 1, poll_errno := 0, current_time := 12, revents := 1, bytes_read := -1,
    read_errno := 19, ev := { tv_sec := 0, tv_usec := 0, type := 0, code := 0, value := 0 } }

/-- A press of key code 30 whose record is stamped 5 and is read when the clock
shows 7. -/
def latePressTick : Tick :=
  { poll_ret := 1, poll_errno := 0, current_time := 7, revents := 1, bytes_read := 24,
    read_errno := 0, ev := { tv_sec := 5, tv_usec := 0, type := 1, code := 30, value := 1 } }

/-- A wait interrupted by a signal, returning when the clock shows `now`. -/
def interruptedTick (now : Int) : Tick :=
  { poll_ret := -1, poll_errno := 4, current_time := now, revents := 0, bytes_read := 0,
    read_errno := 0, ev := { tv_sec := 0, tv_usec := 0, type := 0, code := 0, value := 0 } }

/-- A release of key code 30 read when the clock shows 7. -/
def releaseTick : Tick :=
  { poll_ret := 1, poll_errno := 0, current_time := 7, revents := 1, bytes_read := 24,
    read_errno := 0, ev := { tv_sec := 7, tv_usec := 0, type := 1, code := 30, value := 0 } }

/-- An empty wait that returns when the clock shows `now`. -/
def idleTick (now : Int) : Tick :=
  { poll_ret := 0, poll_errno := 0, current_time := now, revents := 0, bytes_read := 0,
    read_errno := 0, ev := { tv_sec := 0, tv_usec := 0, type := 0, code := 0, value := 0 } }

/-! ## Shared lemmas -/

theorem resolveBrightnessOn_range (desired : Int) (prev_arg : List Char) (max_brightness : Int)
    (hmax : 1 ≤ max_brightness) :
    0 ≤ resolveBrightnessOn desired prev_arg max_brightness ∧
      resolveBrightnessOn desired prev_arg max_brightness ≤ max_brightness := by
  unfold resolveBrightnessOn
  simp only
  split_ifs <;> omega

theorem get_led_max_brightness_pos (file : Option (List Char)) :
    1 ≤ get_led_max_brightness file := by
  unfold get_led_max_brightness
  cases file with
  | none => simp
  | some content =>
    simp only
    split_ifs <;> omega

theorem optionCase_desired (g g1 : Globals) (o : Opt) (hg : g.desired_brightness_on ≠ -2)
    (h : optionCase g o = .ok g1) : g1.desired_brightness_on ≠ -2 := by
  cases o <;> simp only [optionCase] at h
  case help => cases h
  case unknown => cases h
  case timeout a => split_ifs at h <;> cases h <;> exact hg
  case brightness a =>
    split_ifs at h with h1 h2 h3 <;> cases h <;> simp [DEFAULT_BRIGHTNESS_ON] <;> omega
  all_goals cases h; exact hg

theorem parseOptions_desired (os : List Opt) (g g1 : Globals)
    (hg : g.desired_brightness_on ≠ -2) (h : parseOptions g os = .ok g1) :
    g1.desired_brightness_on ≠ -2 := by
  induction os generalizing g with
  | nil => simp only [parseOptions] at h; cases h; exact hg
  | cons o os ih =>
    simp only [parseOptions] at h
    cases ho : optionCase g o with
    | error e => rw [ho] at h; cases h
    | ok g2 =>
      rw [ho] at h
      exact ih g2 (optionCase_desired g g2 o hg ho) h

/-- The block that adjusts `brightness_on` is never entered: whatever the
options, main leaves `brightness_on` at `max_brightness`. -/
theorem setup_brightness_on (env : Env) (su : Setup) (h : setup env = .ok su) :
    su.max_brightness = get_led_max_brightness env.max_brightness_file ∧
      su.brightness_on = su.max_brightness := by
  unfold setup at h
  cases hp : parseOptions initialGlobals env.opts with
  | error e => rw [hp] at h; cases h
  | ok g =>
    rw [hp] at h
    simp only at h
    split_ifs at h
    cases h
    have hd := parseOptions_desired env.opts initialGlobals g
      (by simp [initialGlobals, DEFAULT_BRIGHTNESS_ON]) hp
    simp [resolveBrightnessOn, hd]

theorem processRead_writes (bon : Int) (s : LoopState) (n : Int) (ev : input_event) (now : Int) :
    ∀ w ∈ (processRead bon s n ev now).2, w = bon := by
  unfold processRead
  split_ifs <;> simp

theorem idleCheck_writes (timeout : Int) (s : LoopState) (now : Int) :
    ∀ w ∈ (idleCheck timeout s now).2, w = 0 := by
  unfold idleCheck
  split_ifs <;> simp [brightness_off]

theorem readStep_writes (bon : Int) (s : LoopState) (t : Tick) :
    ∀ w ∈ (readStep bon s t).2.2, w = bon := by
  unfold readStep
  split_ifs <;> simp
  exact processRead_writes bon s t.bytes_read t.ev t.current_time

theorem loopBody_writes (timeout bon : Int) (s : LoopState) (t : Tick) :
    ∀ w ∈ (loopBody timeout bon s t).2.2, w = 0 ∨ w = bon := by
  unfold loopBody
  split_ifs
  · simp
  · simp
  · have hr := readStep_writes bon s t
    rcases hrs : readStep bon s t with ⟨c, s1, w1⟩
    rw [hrs] at hr
    cases c
    · simp only [List.mem_append]
      intro w hw
      rcases hw with hw | hw
      · exact Or.inr (hr w hw)
      · exact Or.inl (idleCheck_writes timeout s1 t.current_time w hw)
    · intro w hw; exact Or.inr (hr w hw)
    · intro w hw; exact Or.inr (hr w hw)

theorem runLoop_writes (timeout bon : Int) (ts : List Tick) (s : LoopState) :
    ∀ w ∈ (runLoop timeout bon ts s).writes, w = 0 ∨ w = bon := by
  induction ts generalizing s with
  | nil => simp [runLoop]
  | cons t ts ih =>
    have hb := loopBody_writes timeout bon s t
    simp only [runLoop]
    rcases hbs : loopBody timeout bon s t with ⟨c, s1, w1⟩
    rw [hbs] at hb
    cases c <;> simp only [List.mem_append]
    · intro w hw
      rcases hw with hw | hw
      · exact hb w hw
      · exact ih s1 w hw
    · intro w hw
      rcases hw with hw | hw
      · exact hb w hw
      · exact ih s1 w hw
    · exact hb

theorem initialState_writes (off : Bool) (bon start : Int) :
    ∀ w ∈ (initialState off bon start).2, w = 0 ∨ w = bon := by
  unfold initialState
  split_ifs <;> simp [brightness_off]

/-! ## The claims -/

/-- C8: `get_led_max_brightness` returns a value of at least 1 whatever the
state of the max_brightness file: it returns 1 when the file cannot be opened,
when `fscanf` converts nothing, and when the converted integer is at most 0;
otherwise it returns exactly the converted integer. -/
theorem get_led_max_brightness_spec (file : Option (List Char)) :
    1 ≤ get_led_max_brightness file ∧
    (file = none → get_led_max_brightness file = 1) ∧
    (∀ content, file = some content → fscanf_d content = none →
      get_led_max_brightness file = 1) ∧
    (∀ content v, file = some content → fscanf_d content = some v → v ≤ 0 →
      get_led_max_brightness file = 1) ∧
    (∀ content v, file = some content → fscanf_d content = some v → 0 < v →
      get_led_max_brightness file = v) := by
  refine ⟨get_led_max_brightness_pos file, ?_, ?_, ?_, ?_⟩
  · rintro rfl; rfl
  · rintro content rfl hc; simp [get_led_max_brightness, hc]
  · rintro content v rfl hc hv; simp [get_led_max_brightness, hc, hv]
  · rintro content v rfl hc hv
    simp only [get_led_max_brightness, hc]
    split_ifs <;> omega

theorem get_led_max_brightness_spec_witness :
    get_led_max_brightness none = 1 ∧
    get_led_max_brightness (some "abc".data) = 1 ∧
    get_led_max_brightness (some "0".data) = 1 ∧
    get_led_max_brightness (some "-7".data) = 1 ∧
    get_led_max_brightness (some "100\n".data) = 100 :=
  ⟨(get_led_max_brightness_spec none).2.1 rfl,
   (get_led_max_brightness_spec (some "abc".data)).2.2.1 _ rfl (by decide),
   (get_led_max_brightness_spec (some "0".data)).2.2.2.1 _ 0 rfl (by decide) (by decide),
   (get_led_max_brightness_spec (some "-7".data)).2.2.2.1 _ (-7) rfl (by decide) (by decide),
   (get_led_max_brightness_spec (some "100\n".data)).2.2.2.2 _ 100 rfl (by decide) (by decide)⟩

/-- C9: whenever main gets as far as computing `brightness_on`, the maximum it
read is at least 1, `brightness_on` lies between 0 and that maximum, and so does
every value main passes to `set_led_brightness`; moreover the block that adjusts
`brightness_on` yields a value between 0 and the maximum for every value of
`desired_brightness_on` and every token, with the product taken in 32-bit
arithmetic. -/
theorem brightness_writes_within_max (env : Env) (su : Setup) (h : setup env = .ok su) :
    1 ≤ su.max_brightness ∧
    0 ≤ su.brightness_on ∧ su.brightness_on ≤ su.max_brightness ∧
    (∀ w ∈ (main env).writes, 0 ≤ w ∧ w ≤ su.max_brightness) ∧
    (∀ (desired : Int) (prev_arg : List Char) (max_brightness : Int), 1 ≤ max_brightness →
      0 ≤ resolveBrightnessOn desired prev_arg max_brightness ∧
        resolveBrightnessOn desired prev_arg max_brightness ≤ max_brightness) := by
  obtain ⟨hm, hb⟩ := setup_brightness_on env su h
  have hpos : 1 ≤ su.max_brightness := hm ▸ get_led_max_brightness_pos _
  refine ⟨hpos, by omega, by omega, ?_, fun d a m hm1 => resolveBrightnessOn_range d a m hm1⟩
  have key : ∀ w, w = 0 ∨ w = su.brightness_on → 0 ≤ w ∧ w ≤ su.max_brightness := by
    intro w hw
    rcases hw with hw | hw <;> omega
  intro w hw
  apply key
  unfold main at hw
  rw [h] at hw
  simp only at hw
  split_ifs at hw
  · simp at hw
  · simp only [List.mem_append, List.mem_singleton] at hw
    rcases hw with (hw | hw) | hw
    · exact initialState_writes _ _ _ w hw
    · exact runLoop_writes _ _ _ _ w hw
    · exact Or.inl hw
  · simp only [List.mem_append] at hw
    rcases hw with hw | hw
    · exact initialState_writes _ _ _ w hw
    · exact runLoop_writes _ _ _ _ w hw

theorem brightness_writes_within_max_witness :
    (main (envWith "9999".data "100".data pressThenIdle)).writes = [100, 0] ∧
    (∀ w ∈ (main (envWith "9999".data "100".data pressThenIdle)).writes, 0 ≤ w ∧ w ≤ 100) ∧
    0 ≤ resolveBrightnessOn (-2) "-5".data 100 ∧ resolveBrightnessOn (-2) "-5".data 100 ≤ 100 :=
  ⟨by decide,
   (brightness_writes_within_max (envWith "9999".data "100".data pressThenIdle)
      { g := { initialGlobals with desired_brightness_on := 9999 },
        max_brightness := 100, brightness_on := 100 } rfl).2.2.2.1,
   (brightness_writes_within_max (envWith "9999".data "100".data pressThenIdle)
      { g := { initialGlobals with desired_brightness_on := 9999 },
        max_brightness := 100, brightness_on := 100 } rfl).2.2.2.2 (-2) "-5".data 100
      (by decide)⟩

/-- C1: evaluation of main at the brightness option `50%`: with a maximum of 100
the on-level is 100, not 50, and with a maximum of 3 it is 3, not 1; the block
that would take the percentage does compute 50 and 1 when it is entered with the
value -2 in `desired_brightness_on`. -/
theorem percent_option_leaves_max :
    mainBrightnessOn (envWith "50%".data "100".data []) = some 100 ∧
    mainBrightnessOn (envWith "50%".data "3".data []) = some 3 ∧
    (optionCase initialGlobals (Opt.brightness "50%".data)).toOption.map
      Globals.desired_brightness_on = some 50 ∧
    resolveBrightnessOn (-2) "50%".data 100 = 50 ∧
    resolveBrightnessOn (-2) "50%".data 3 = 1 := by
  decide

/-- C2: evaluation of main at the absolute brightness options `30` and `9999`
with a maximum of 100: the on-level is 100 in both cases, not 30 for the first;
the block that would take the absolute value does compute 30 and 100 when it is
entered with the value -2 in `desired_brightness_on`. -/
theorem absolute_option_leaves_max :
    mainBrightnessOn (envWith "30".data "100".data []) = some 100 ∧
    mainBrightnessOn (envWith "9999".data "100".data []) = some 100 ∧
    (optionCase initialGlobals (Opt.brightness "30".data)).toOption.map
      Globals.desired_brightness_on = some 30 ∧
    resolveBrightnessOn (-2) "30".data 100 = 30 ∧
    resolveBrightnessOn (-2) "9999".data 100 = 100 := by
  decide

theorem loopBody_brk (timeout bon : Int) (s : LoopState) (t : Tick)
    (hf : t.pollError = true ∨ t.readError = true ∨ t.eof = true) :
    (loopBody timeout bon s t).1 = Ctl.brk := by
  simp only [Tick.pollError, Tick.readError, Tick.eof, Tick.reads, Bool.and_eq_true,
    decide_eq_true_eq] at hf
  unfold loopBody readStep
  rcases hf with ⟨h1, h2⟩ | ⟨⟨h1, h2⟩, h3, h4⟩ | ⟨⟨h1, h2⟩, h3⟩
  · simp [h1, h2]
  · have : ¬ t.poll_ret < 0 := by omega
    simp [this, h1, h2, h3, h4]
  · have : ¬ t.poll_ret < 0 := by omega
    simp [this, h1, h2, h3]

theorem runLoop_exits (timeout bon : Int) (ts : List Tick) (s : LoopState) (t : Tick)
    (ht : t ∈ ts) (hf : t.pollError = true ∨ t.readError = true ∨ t.eof = true) :
    (runLoop timeout bon ts s).exited = true := by
  induction ts generalizing s with
  | nil => cases ht
  | cons u us ih =>
    simp only [runLoop]
    rcases hb : loopBody timeout bon s u with ⟨c, s1, w⟩
    cases c
    · simp only
      rcases List.mem_cons.mp ht with rfl | hmem
      · have := loopBody_brk timeout bon s t hf
        rw [hb] at this
        cases this
      · exact ih s1 hmem
    · simp only
      rcases List.mem_cons.mp ht with rfl | hmem
      · have := loopBody_brk timeout bon s t hf
        rw [hb] at this
        cases this
      · exact ih s1 hmem
    · rfl

theorem loopBody_brk_fatal (timeout bon : Int) (s : LoopState) (t : Tick)
    (h : (loopBody timeout bon s t).1 = Ctl.brk) :
    t.pollError = true ∨ t.readError = true ∨ t.eof = true := by
  simp only [Tick.pollError, Tick.readError, Tick.eof, Tick.reads, Bool.and_eq_true,
    decide_eq_true_eq]
  by_cases h1 : t.poll_ret < 0
  · by_cases h2 : t.poll_errno = EINTR
    · simp [loopBody, h1, h2] at h
    · exact Or.inl ⟨h1, h2⟩
  · have hr : (readStep bon s t).1 = Ctl.brk := by
      unfold loopBody at h
      rw [if_neg h1] at h
      rcases hrs : readStep bon s t with ⟨c, s1, w1⟩
      rw [hrs] at h
      cases c
      · cases h
      · cases h
      · rfl
    unfold readStep at hr
    by_cases h3 : t.poll_ret > 0
    · by_cases h4 : t.revents &&& POLLIN ≠ 0
      · by_cases h5 : t.bytes_read < 0
        · by_cases h6 : t.read_errno = EINTR
          · simp [h3, h4, h5, h6] at hr
          · exact Or.inr (Or.inl ⟨⟨h3, h4⟩, h5, h6⟩)
        · by_cases h7 : t.bytes_read = 0
          · exact Or.inr (Or.inr ⟨⟨h3, h4⟩, h7⟩)
          · simp [h3, h4, h5, h7] at hr
      · simp [h3, h4] at hr
    · simp [h3] at hr

theorem runLoop_exited (timeout bon : Int) (ts : List Tick) (s : LoopState)
    (h : (runLoop timeout bon ts s).exited = true) :
    ∃ t ∈ ts, t.pollError = true ∨ t.readError = true ∨ t.eof = true := by
  induction ts generalizing s with
  | nil => simp [runLoop] at h
  | cons u us ih =>
    simp only [runLoop] at h
    have hb := loopBody_brk_fatal timeout bon s u
    rcases hbs : loopBody timeout bon s u with ⟨c, s1, w⟩
    rw [hbs] at h hb
    cases c
    · obtain ⟨t, ht, hf⟩ := ih s1 h
      exact ⟨t, List.mem_cons_of_mem u ht, hf⟩
    · obtain ⟨t, ht, hf⟩ := ih s1 h
      exact ⟨t, List.mem_cons_of_mem u ht, hf⟩
    · exact ⟨u, List.mem_cons_self u us, hb rfl⟩

theorem parseOptions_error (os : List Opt) (g : Globals) (st : Int)
    (h : parseOptions g os = .error st) :
    (st = 0 ∧ Opt.help ∈ os) ∨ (st = 1 ∧ Opt.unknown ∈ os) := by
  induction os generalizing g with
  | nil => simp [parseOptions] at h
  | cons o os ih =>
    simp only [parseOptions] at h
    cases ho : optionCase g o with
    | ok g1 =>
      rw [ho] at h
      rcases ih g1 h with ⟨h1, h2⟩ | ⟨h1, h2⟩
      · exact Or.inl ⟨h1, List.mem_cons_of_mem o h2⟩
      · exact Or.inr ⟨h1, List.mem_cons_of_mem o h2⟩
    | error e =>
      rw [ho] at h
      simp only [Except.error.injEq] at h
      subst h
      cases o <;> simp only [optionCase] at ho
      case help => cases ho; exact Or.inl ⟨rfl, List.mem_cons_self _ _⟩
      case unknown => cases ho; exact Or.inr ⟨rfl, List.mem_cons_self _ _⟩
      case timeout a => split_ifs at ho
      case brightness a => split_ifs at ho
      all_goals cases ho

/-- C3, as the code has it: once main has entered the loop, a pass whose wait or
read fails with an error other than an interrupt, or whose read returns zero
bytes, makes the process exit with status 0 after a last write of 0.  Exit
status 0 is returned only for help display or for such a termination of the
loop.  Exit status 1 is returned only when the loop was never entered, and each
failure before the loop returns it: an unknown option, no keyboard, no LED, an
input device that cannot be opened.  The status of a return from the option
loop is 0 for help and 1 for an unknown option. -/
theorem loop_termination_exit_status (env : Env) (su : Setup) (t : Tick)
    (hs : setup env = .ok su) (ho : env.open_ok = true) (ht : t ∈ env.ticks)
    (hf : t.pollError = true ∨ t.readError = true ∨ t.eof = true) :
    (main env).exit = some 0 ∧ (main env).writes.getLast? = some 0 ∧
    (∀ env1 : Env, (main env1).exit = some 0 →
      (Opt.help ∈ env1.opts ∧ parseOptions initialGlobals env1.opts = .error 0) ∨
        ((∃ su1, setup env1 = .ok su1) ∧ env1.open_ok = true ∧
          ∃ u ∈ env1.ticks, u.pollError = true ∨ u.readError = true ∨ u.eof = true)) ∧
    (∀ env1 : Env, (main env1).exit = some 1 →
      (main env1).writes = [] ∧
        (setup env1 = .error 1 ∨ ((∃ su1, setup env1 = .ok su1) ∧ env1.open_ok = false))) ∧
    (∀ (env1 : Env) (g : Globals), parseOptions initialGlobals env1.opts = .ok g →
      env1.keyboard_found = false ∨ env1.led_found = false ∨ env1.open_ok = false →
      (main env1).exit = some 1) ∧
    (∀ (env1 : Env) (st : Int), parseOptions initialGlobals env1.opts = .error st →
      (main env1).exit = some st ∧
        ((st = 0 ∧ Opt.help ∈ env1.opts) ∨ (st = 1 ∧ Opt.unknown ∈ env1.opts))) := by
  have hx := runLoop_exits su.g.backlight_timeout su.brightness_on env.ticks
    (initialState su.g.initial_off_mode su.brightness_on env.start_time).1 t ht hf
  refine ⟨?_, ?_, ?_, ?_, ?_, ?_⟩
  · simp [main, hs, ho, hx]
  · simp [main, hs, ho, hx, brightness_off]
  · intro env1 h1
    cases hp : parseOptions initialGlobals env1.opts with
    | error st =>
      have hst : (main env1).exit = some st := by simp [main, setup, hp]
      rw [h1] at hst
      simp only [Option.some.injEq] at hst
      subst hst
      rcases parseOptions_error _ _ _ hp with ⟨_, hm⟩ | ⟨h0, _⟩
      · exact Or.inl ⟨hm, rfl⟩
      · cases h0
    | ok g =>
      right
      unfold main at h1
      cases hs1 : setup env1 with
      | error e =>
        rw [hs1] at h1
        simp only [Option.some.injEq] at h1
        subst h1
        simp only [setup, hp] at hs1
        split_ifs at hs1
        all_goals cases hs1
      | ok su1 =>
        rw [hs1] at h1
        simp only at h1
        split_ifs at h1 with hopen hex
        · cases h1
        · exact ⟨⟨su1, rfl⟩, by simpa using hopen, runLoop_exited _ _ _ _ hex⟩
  · intro env1 h1
    unfold main at h1 ⊢
    cases hs1 : setup env1 with
    | error e =>
      rw [hs1] at h1
      simp only [Option.some.injEq] at h1
      subst h1
      simp
    | ok su1 =>
      rw [hs1] at h1
      simp only at h1 ⊢
      split_ifs at h1 ⊢ with hopen hex
      · simpa using hopen
      · simp at h1
  · intro env1 g hp hfail
    simp only [main, setup, hp]
    rcases hfail with hk | hl | hop
    · simp [hk]
    · cases env1.keyboard_found <;> simp [hl]
    · cases env1.keyboard_found <;> cases env1.led_found <;> simp [hop]
  · intro env1 st hp
    exact ⟨by simp [main, setup, hp], parseOptions_error _ _ _ hp⟩

theorem loop_termination_exit_status_witness :
    (main (envWith "30".data "100".data [readErrorTick])).exit = some 0 ∧
    (main (envWith "30".data "100".data [readErrorTick])).writes.getLast? = some 0 ∧
    (main { envWith "30".data "100".data [readErrorTick] with keyboard_found := false }).exit =
      some 1 ∧
    (main { envWith "30".data "100".data [readErrorTick] with opts := [Opt.help] }).exit =
      some 0 :=
  ⟨(loop_termination_exit_status (envWith "30".data "100".data [readErrorTick])
      { g := { initialGlobals with desired_brightness_on := 30 },
        max_brightness := 100, brightness_on := 100 } readErrorTick rfl rfl
      (List.mem_singleton.mpr rfl) (Or.inr (Or.inl (by decide)))).1,
   (loop_termination_exit_status (envWith "30".data "100".data [readErrorTick])
      { g := { initialGlobals with desired_brightness_on := 30 },
        max_brightness := 100, brightness_on := 100 } readErrorTick rfl rfl
      (List.mem_singleton.mpr rfl) (Or.inr (Or.inl (by decide)))).2.1,
   (loop_termination_exit_status (envWith "30".data "100".data [readErrorTick])
      { g := { initialGlobals with desired_brightness_on := 30 },
        max_brightness := 100, brightness_on := 100 } readErrorTick rfl rfl
      (List.mem_singleton.mpr rfl) (Or.inr (Or.inl (by decide)))).2.2.2.2.1
      { envWith "30".data "100".data [readErrorTick] with keyboard_found := false }
      { initialGlobals with desired_brightness_on := 30 } rfl (Or.inl rfl),
   ((loop_termination_exit_status (envWith "30".data "100".data [readErrorTick])
      { g := { initialGlobals with desired_brightness_on := 30 },
        max_brightness := 100, brightness_on := 100 } readErrorTick rfl rfl
      (List.mem_singleton.mpr rfl) (Or.inr (Or.inl (by decide)))).2.2.2.2.2
      { envWith "30".data "100".data [readErrorTick] with opts := [Opt.help] } 0 rfl).1⟩

/-- C3 fails as stated: a wait that fails with EIO, and a read that fails with
ENODEV, each end the loop, and the exit status is 0, not 1. -/
theorem io_error_exit_status_is_zero :
    pollErrorTick.pollError = true ∧
    (main (envWith "30".data "100".data [pollErrorTick])).exit = some 0 ∧
    (main (envWith "30".data "100".data [pollErrorTick])).exit ≠ some 1 ∧
    readErrorTick.readError = true ∧
    (main (envWith "30".data "100".data [readErrorTick])).exit = some 0 ∧
    (main (envWith "30".data "100".data [readErrorTick])).exit ≠ some 1 := by
  decide

/-- C6, as the code has it: a pass that reads a full-size record of class key,
whatever its value and whatever the state, leaves `last_key_activity_time` equal
to the reading `current_time` of the clock taken in that pass; every other pass
(a record of another class, a short read, no read at all) leaves it unchanged.
This holds after the event processing and at the end of the pass. -/
theorem last_activity_is_clock_reading (timeout bon : Int) (s : LoopState) (t : Tick) :
    (readStep bon s t).2.1.last_key_activity_time =
      (if t.keyRecord then t.current_time else s.last_key_activity_time) ∧
    (loopBody timeout bon s t).2.1.last_key_activity_time =
      (if t.keyRecord then t.current_time else s.last_key_activity_time) := by
  have h1 : (readStep bon s t).2.1.last_key_activity_time =
      (if t.keyRecord then t.current_time else s.last_key_activity_time) := by
    simp only [readStep, processRead, Tick.keyRecord, Tick.reads, Bool.and_eq_true,
      decide_eq_true_eq]
    split_ifs <;> simp_all [sizeof_ev]
  refine ⟨h1, ?_⟩
  rw [← h1]
  unfold loopBody
  split_ifs with hp he
  · simp [readStep, show ¬ t.poll_ret > 0 by omega]
  · simp [readStep, show ¬ t.poll_ret > 0 by omega]
  · rcases hr : readStep bon s t with ⟨c, s1, w1⟩
    cases c
    · simp only [idleCheck]
      split_ifs <;> rfl
    · rfl
    · rfl

/-- C6 fails as stated: a key record stamped 5 that is read when the clock shows
7 leaves `last_key_activity_time` at 7, not at the stamp of the record. -/
theorem last_activity_is_not_event_stamp :
    latePressTick.keyRecord = true ∧ latePressTick.ev.tv_sec = 5 ∧
    (readStep 100 { current_brightness_is_on := false, last_key_activity_time := 0 }
      latePressTick).2.1.last_key_activity_time = 7 ∧
    (loopBody 2 100 { current_brightness_is_on := false, last_key_activity_time := 0 }
      latePressTick).2.1.last_key_activity_time ≠ latePressTick.ev.tv_sec := by
  decide

/-- C7: with the initial-off flag set the initial write is 0 and the initial
state is OFF, whatever the on-level; and from state OFF the event processing of
a pass issues exactly one write, of `brightness_on`, and moves to ON when the
pass reads a full-size key record with value 1 or 2, while every other pass (a
key record with another value, a record of another class, a short read, no
read) issues no write and leaves the state OFF. -/
theorem off_state_event_processing (bon start : Int) (s : LoopState) (t : Tick)
    (hoff : s.current_brightness_is_on = false) :
    initialState true bon start =
      ({ current_brightness_is_on := false, last_key_activity_time := start }, [0]) ∧
    (t.qualifying = true →
      (readStep bon s t).1 = Ctl.next ∧ (readStep bon s t).2.2 = [bon] ∧
        (readStep bon s t).2.1.current_brightness_is_on = true) ∧
    (t.qualifying = false →
      (readStep bon s t).2.2 = [] ∧
        (readStep bon s t).2.1.current_brightness_is_on = false) := by
  refine ⟨rfl, ?_, ?_⟩
  · intro hq
    simp only [Tick.qualifying, Tick.keyRecord, Tick.reads, Bool.and_eq_true,
      decide_eq_true_eq] at hq
    obtain ⟨⟨⟨hp, hr⟩, hb, hty⟩, hv⟩ := hq
    have h24 : ¬ sizeof_ev < 0 := by decide
    have h24b : ¬ sizeof_ev = 0 := by decide
    simp [readStep, processRead, hp, hr, h24, h24b, hb, hty, hv, hoff]
  · intro hq
    simp only [Tick.qualifying, Tick.keyRecord, Tick.reads, Bool.and_eq_false_iff,
      decide_eq_false_iff_not, decide_eq_true_eq] at hq
    simp only [readStep, processRead]
    split_ifs <;> simp_all

theorem off_state_event_processing_witness :
    ((readStep 100 { current_brightness_is_on := false, last_key_activity_time := 0 }
        latePressTick).2.2 = [100] ∧
      (readStep 100 { current_brightness_is_on := false, last_key_activity_time := 0 }
        latePressTick).2.1.current_brightness_is_on = true) ∧
    ((readStep 100 { current_brightness_is_on := false, last_key_activity_time := 0 }
        releaseTick).2.2 = [] ∧
      (readStep 100 { current_brightness_is_on := false, last_key_activity_time := 0 }
        releaseTick).2.1.current_brightness_is_on = false) :=
  ⟨((off_state_event_processing 100 0
      { current_brightness_is_on := false, last_key_activity_time := 0 } latePressTick rfl).2.1
      (by decide)).2,
   (off_state_event_processing 100 0
      { current_brightness_is_on := false, last_key_activity_time := 0 } releaseTick rfl).2.2
      (by decide)⟩

/-- C10, as the code has it: for every timeout of at least 1, a pass that starts
in state ON and reads a full-size key record with value 1 or 2 issues no
brightness write, ends at the closing brace of the loop in state ON, and changes
only `last_key_activity_time`, which becomes the clock reading of the pass. -/
theorem press_while_on_no_write (timeout bon : Int) (s : LoopState) (t : Tick)
    (htimeout : 1 ≤ timeout) (hon : s.current_brightness_is_on = true)
    (hq : t.qualifying = true) :
    loopBody timeout bon s t =
      (Ctl.next, { s with last_key_activity_time := t.current_time }, []) := by
  simp only [Tick.qualifying, Tick.keyRecord, Tick.reads, Bool.and_eq_true,
    decide_eq_true_eq] at hq
  obtain ⟨⟨⟨hp, hr⟩, hb, hty⟩, hv⟩ := hq
  have h24 : ¬ sizeof_ev < 0 := by decide
  have h24b : ¬ sizeof_ev = 0 := by decide
  have hneg : ¬ t.poll_ret < 0 := by omega
  have hidle : ¬ timeout ≤ 0 := by omega
  simp [loopBody, readStep, processRead, idleCheck, hp, hr, h24, h24b, hb, hty, hv, hon,
    hneg, hidle]

theorem press_while_on_no_write_witness :
    loopBody 2 100 { current_brightness_is_on := true, last_key_activity_time := 0 }
        latePressTick =
      (Ctl.next, { current_brightness_is_on := true, last_key_activity_time := 7 }, []) :=
  press_while_on_no_write 2 100 { current_brightness_is_on := true, last_key_activity_time := 0 }
    latePressTick (by decide) rfl (by decide)

/-- C10 fails as stated at timeout 0: a press read in state ON makes the idle
check of the same pass write 0, and the pass ends in state OFF. -/
theorem press_while_on_timeout_zero :
    latePressTick.qualifying = true ∧
    (optionCase initialGlobals (Opt.timeout "0".data)).toOption.map
      Globals.backlight_timeout = some 0 ∧
    loopBody 0 100 { current_brightness_is_on := true, last_key_activity_time := 0 }
        latePressTick =
      (Ctl.next, { current_brightness_is_on := false, last_key_activity_time := 7 }, [0]) := by
  decide

theorem readStep_next (bon : Int) (s : LoopState) (t : Tick)
    (hreach : t.reachesIdleCheck = true) : (readStep bon s t).1 = Ctl.next := by
  simp only [Tick.reachesIdleCheck, Tick.reads, Bool.and_eq_true, Bool.or_eq_true,
    Bool.not_eq_true', decide_eq_true_eq, decide_eq_false_iff_not] at hreach
  obtain ⟨_, hr⟩ := hreach
  unfold readStep
  split_ifs with h1 h2 h3 h4 h5
  · exfalso; rcases hr with hr | hr
    · exact hr ⟨h1, h2⟩
    · omega
  · exfalso; rcases hr with hr | hr
    · exact hr ⟨h1, h2⟩
    · omega
  · exfalso; rcases hr with hr | hr
    · exact hr ⟨h1, h2⟩
    · omega
  · rfl
  · rfl
  · rfl

theorem loopBody_of_reaches (timeout bon : Int) (s : LoopState) (t : Tick)
    (hreach : t.reachesIdleCheck = true) :
    loopBody timeout bon s t =
      (Ctl.next, (idleCheck timeout (readStep bon s t).2.1 t.current_time).1,
        (readStep bon s t).2.2 ++ (idleCheck timeout (readStep bon s t).2.1 t.current_time).2) := by
  have hn := readStep_next bon s t hreach
  simp only [Tick.reachesIdleCheck, Bool.and_eq_true, decide_eq_true_eq] at hreach
  have hp : ¬ t.poll_ret < 0 := by omega
  unfold loopBody
  rw [if_neg hp]
  rcases hr : readStep bon s t with ⟨c, s1, w1⟩
  rw [hr] at hn
  simp only at hn
  subst hn
  rfl

theorem readStep_quiet (bon : Int) (s : LoopState) (t : Tick)
    (hreach : t.reachesIdleCheck = true) (hk : t.keyRecord = false) :
    readStep bon s t = (Ctl.next, s, []) := by
  have hn := readStep_next bon s t hreach
  simp only [Tick.keyRecord, Tick.reads, Bool.and_eq_false_iff, decide_eq_false_iff_not] at hk
  simp only [readStep, processRead] at hn ⊢
  split_ifs at hn ⊢ <;> first | rfl | (exfalso; simp_all)

theorem runLoop_quiet_off (timeout bon : Int) (ts : List Tick) (s : LoopState)
    (hoff : s.current_brightness_is_on = false)
    (hts : ∀ u ∈ ts, u.reachesIdleCheck = true ∧ u.keyRecord = false) :
    runLoop timeout bon ts s = { state := s, writes := [], exited := false } := by
  induction ts with
  | nil => rfl
  | cons u us ih =>
    obtain ⟨hr, hk⟩ := hts u (List.mem_cons_self u us)
    have hb : loopBody timeout bon s u = (Ctl.next, s, []) := by
      rw [loopBody_of_reaches timeout bon s u hr, readStep_quiet bon s u hr hk]
      simp [idleCheck, hoff]
    simp only [runLoop, hb]
    rw [ih (fun v hv => hts v (List.mem_cons_of_mem u hv))]
    rfl

theorem runLoop_quiet_on (bon : Int) (ts : List Tick) (s : LoopState)
    (hon : s.current_brightness_is_on = true) (hlast : s.last_key_activity_time = 0)
    (hts : ∀ u ∈ ts, u.reachesIdleCheck = true ∧ u.keyRecord = false) :
    (runLoop 2 bon ts s).exited = false ∧
    ((runLoop 2 bon ts s).state.current_brightness_is_on = true ↔
      ∀ u ∈ ts, u.current_time < 2) ∧
    (runLoop 2 bon ts s).writes =
      (if ts.all (fun u => decide (u.current_time < 2)) then [] else [0]) := by
  induction ts with
  | nil => simp [runLoop, hon]
  | cons u us ih =>
    obtain ⟨hr, hk⟩ := hts u (List.mem_cons_self u us)
    have htl := fun v hv => hts v (List.mem_cons_of_mem u hv)
    by_cases hu : u.current_time < 2
    · have hb : loopBody 2 bon s u = (Ctl.next, s, []) := by
        rw [loopBody_of_reaches 2 bon s u hr, readStep_quiet bon s u hr hk]
        have : ¬ 2 ≤ u.current_time := by omega
        simp [idleCheck, hon, hlast, this]
      obtain ⟨h1, h2, h3⟩ := ih htl
      simp only [runLoop, hb, List.nil_append, List.forall_mem_cons, List.all_cons]
      refine ⟨h1, ?_, ?_⟩
      · rw [h2]; simp [hu]
      · rw [h3]; simp [hu]
    · have hb : loopBody 2 bon s u =
          (Ctl.next, { s with current_brightness_is_on := false }, [0]) := by
        rw [loopBody_of_reaches 2 bon s u hr, readStep_quiet bon s u hr hk]
        have : 2 ≤ u.current_time := by omega
        simp [idleCheck, hon, hlast, this, brightness_off]
      simp only [runLoop, hb]
      rw [runLoop_quiet_off 2 bon us _ rfl htl]
      simp [hu]

/-- C5: in a pass that reaches the idle check, if the state after the event
processing is ON and `current_time - last_key_activity_time >= backlight_timeout`
then the pass issues, after the writes of the event processing, exactly one
write of 0 and ends in state OFF with the activity time unchanged; otherwise the
idle check adds no write and leaves the state as the event processing left it.
With timeout 2, starting in state ON with the last key event at time 0, over any
passes that reach the idle check and read no key record the loop keeps running,
the state is ON exactly as long as every clock reading so far was below 2, and
one write of 0 is issued at the first reading of 2 or more. -/
theorem idle_check_spec (timeout bon : Int) (s : LoopState) (t : Tick)
    (hreach : t.reachesIdleCheck = true) :
    (readStep bon s t).1 = Ctl.next ∧ (loopBody timeout bon s t).1 = Ctl.next ∧
    ((readStep bon s t).2.1.current_brightness_is_on = true ∧
        t.current_time - (readStep bon s t).2.1.last_key_activity_time ≥ timeout →
      (loopBody timeout bon s t).2.2 = (readStep bon s t).2.2 ++ [0] ∧
        (loopBody timeout bon s t).2.1 =
          { (readStep bon s t).2.1 with current_brightness_is_on := false }) ∧
    (¬ ((readStep bon s t).2.1.current_brightness_is_on = true ∧
        t.current_time - (readStep bon s t).2.1.last_key_activity_time ≥ timeout) →
      (loopBody timeout bon s t).2.2 = (readStep bon s t).2.2 ∧
        (loopBody timeout bon s t).2.1 = (readStep bon s t).2.1) ∧
    (∀ (ts : List Tick) (s0 : LoopState),
      s0.current_brightness_is_on = true → s0.last_key_activity_time = 0 →
      (∀ u ∈ ts, u.reachesIdleCheck = true ∧ u.keyRecord = false) →
      (runLoop 2 bon ts s0).exited = false ∧
      ((runLoop 2 bon ts s0).state.current_brightness_is_on = true ↔
        ∀ u ∈ ts, u.current_time < 2) ∧
      (runLoop 2 bon ts s0).writes =
        (if ts.all (fun u => decide (u.current_time < 2)) then [] else [0])) := by
  have hb := loopBody_of_reaches timeout bon s t hreach
  refine ⟨readStep_next bon s t hreach, by rw [hb], ?_, ?_,
    fun ts s0 h1 h2 h3 => runLoop_quiet_on bon ts s0 h1 h2 h3⟩
  · rintro ⟨h1, h2⟩
    rw [hb]
    simp [idleCheck, h1, h2, brightness_off]
  · intro h
    rw [hb]
    simp only [idleCheck]
    split_ifs with h1 h2
    · exact absurd ⟨h1, h2⟩ h
    · simp
    · simp

theorem idle_check_spec_witness :
    ((loopBody 2 100 { current_brightness_is_on := true, last_key_activity_time := 0 }
        (idleTick 2)).2.2 = [] ++ [0] ∧
      (loopBody 2 100 { current_brightness_is_on := true, last_key_activity_time := 0 }
        (idleTick 2)).2.1 =
        { current_brightness_is_on := false, last_key_activity_time := 0 }) ∧
    ((runLoop 2 100 [idleTick 0, idleTick 1, idleTick 1]
        { current_brightness_is_on := true, last_key_activity_time := 0 }
      ).state.current_brightness_is_on = true) ∧
    ((runLoop 2 100 [idleTick 0, idleTick 1, idleTick 2, idleTick 3]
        { current_brightness_is_on := true, last_key_activity_time := 0 }).writes = [0]) :=
  ⟨(idle_check_spec 2 100 { current_brightness_is_on := true, last_key_activity_time := 0 }
      (idleTick 2) (by decide)).2.2.1 (by decide),
   ((idle_check_spec 2 100 { current_brightness_is_on := true, last_key_activity_time := 0 }
      (idleTick 2) (by decide)).2.2.2.2 [idleTick 0, idleTick 1, idleTick 1]
      { current_brightness_is_on := true, last_key_activity_time := 0 } rfl rfl
      (by decide)).2.1.mpr (by decide),
   ((idle_check_spec 2 100 { current_brightness_is_on := true, last_key_activity_time := 0 }
      (idleTick 2) (by decide)).2.2.2.2 [idleTick 0, idleTick 1, idleTick 2, idleTick 3]
      { current_brightness_is_on := true, last_key_activity_time := 0 } rfl rfl
      (by decide)).2.2⟩

theorem runLoop_append (timeout bon : Int) (a b : List Tick) (s : LoopState)
    (h : (runLoop timeout bon (a ++ b) s).exited = false) :
    (runLoop timeout bon a s).exited = false ∧
    (runLoop timeout bon (a ++ b) s).state =
      (runLoop timeout bon b (runLoop timeout bon a s).state).state := by
  induction a generalizing s with
  | nil => simp [runLoop]
  | cons u us ih =>
    simp only [List.cons_append, runLoop] at h ⊢
    rcases hb : loopBody timeout bon s u with ⟨c, s1, w⟩
    rw [hb] at h
    cases c
    · exact ih s1 h
    · exact ih s1 h
    · simp at h

theorem loopBody_keeps_on (timeout bon tq : Int) (s : LoopState) (u : Tick)
    (hon : s.current_brightness_is_on = true) (hlast : tq ≤ s.last_key_activity_time)
    (h1 : tq ≤ u.current_time) (h2 : u.current_time - tq < timeout) :
    (loopBody timeout bon s u).2.1.current_brightness_is_on = true ∧
      tq ≤ (loopBody timeout bon s u).2.1.last_key_activity_time := by
  have hr : (readStep bon s u).2.1.current_brightness_is_on = true ∧
      tq ≤ (readStep bon s u).2.1.last_key_activity_time := by
    simp only [readStep, processRead]
    split_ifs <;> simp [hon, hlast, h1]
  unfold loopBody
  split_ifs
  · exact ⟨hon, hlast⟩
  · exact ⟨hon, hlast⟩
  · rcases hrs : readStep bon s u with ⟨c, s1, w1⟩
    rw [hrs] at hr
    cases c
    · have hr1 : s1.current_brightness_is_on = true := hr.1
      have hr2 : tq ≤ s1.last_key_activity_time := hr.2
      have hidle : ¬ u.current_time - s1.last_key_activity_time ≥ timeout := by omega
      have hi : idleCheck timeout s1 u.current_time = (s1, []) := by
        simp only [idleCheck, hr1, if_true, if_neg hidle]
      simp only [hi]
      exact ⟨hr1, hr2⟩
    · exact hr
    · exact hr

theorem runLoop_keeps_on (timeout bon tq : Int) (ts : List Tick) (s : LoopState)
    (hon : s.current_brightness_is_on = true) (hlast : tq ≤ s.last_key_activity_time)
    (hts : ∀ u ∈ ts, tq ≤ u.current_time ∧ u.current_time - tq < timeout) :
    (runLoop timeout bon ts s).state.current_brightness_is_on = true := by
  induction ts generalizing s with
  | nil => simpa [runLoop] using hon
  | cons u us ih =>
    obtain ⟨h1, h2⟩ := hts u (List.mem_cons_self u us)
    have hk := loopBody_keeps_on timeout bon tq s u hon hlast h1 h2
    simp only [runLoop]
    rcases hb : loopBody timeout bon s u with ⟨c, s1, w⟩
    rw [hb] at hk
    cases c
    · exact ih s1 hk.1 hk.2 (fun v hv => hts v (List.mem_cons_of_mem u hv))
    · exact ih s1 hk.1 hk.2 (fun v hv => hts v (List.mem_cons_of_mem u hv))
    · exact hk.1

theorem clock_le_getLastD (ts : List Tick) (q : Tick)
    (h : (q :: ts).Pairwise (fun a b => a.current_time ≤ b.current_time)) :
    ∀ u ∈ q :: ts, u.current_time ≤ (ts.getLastD q).current_time := by
  induction ts generalizing q with
  | nil => intro u hu; simp at hu; subst hu; simp
  | cons r rs ih =>
    have hr := ih r (List.Pairwise.of_cons h)
    intro u hu
    rw [List.getLastD_cons]
    rcases List.mem_cons.mp hu with rfl | hu
    · exact le_trans ((List.pairwise_cons.mp h).1 r (List.mem_cons_self r rs))
        (hr r (List.mem_cons_self r rs))
    · exact hr u hu

theorem loopBody_qualifying (timeout bon : Int) (s : LoopState) (q : Tick)
    (hq : q.qualifying = true) (hpos : 0 < timeout) :
    ∃ w, loopBody timeout bon s q =
      (Ctl.next, { current_brightness_is_on := true, last_key_activity_time := q.current_time },
        w) := by
  simp only [Tick.qualifying, Tick.keyRecord, Tick.reads, Bool.and_eq_true,
    decide_eq_true_eq] at hq
  obtain ⟨⟨⟨hp, hr⟩, hb, hty⟩, hv⟩ := hq
  have h24 : ¬ sizeof_ev < 0 := by decide
  have h24b : ¬ sizeof_ev = 0 := by decide
  have hneg : ¬ q.poll_ret < 0 := by omega
  have hidle : ¬ timeout ≤ 0 := by omega
  cases hon : s.current_brightness_is_on
  · exact ⟨[bon], by
      simp [loopBody, readStep, processRead, idleCheck, hp, hr, h24, h24b, hb, hty, hv, hon,
        hneg, hidle]⟩
  · exact ⟨[], by
      simp [loopBody, readStep, processRead, idleCheck, hp, hr, h24, h24b, hb, hty, hv, hon,
        hneg, hidle]⟩

/-- C4: in a run of the loop over passes with non-decreasing clock readings, in
which no `break` has been reached, if some pass read a qualifying key event
(full size, class key, value 1 or 2) and the clock reading of the current, last
pass is less than `backlight_timeout` after the clock reading of that pass, then
the state is ON at the end of the current pass.  This holds for any qualifying
event, so for the most recent one, whatever the passes before and after it are
(releases, other records, short reads, empty waits, interrupted calls), and
whether or not the current pass reaches the idle check. -/
theorem recent_key_event_keeps_on (timeout bon : Int) (s0 : LoopState) (before : List Tick)
    (q : Tick) (after : List Tick)
    (hclock : (before ++ q :: after).Pairwise (fun a b => a.current_time ≤ b.current_time))
    (hq : q.qualifying = true)
    (hrun : (runLoop timeout bon (before ++ q :: after) s0).exited = false)
    (hfresh : (after.getLastD q).current_time - q.current_time < timeout) :
    (runLoop timeout bon (before ++ q :: after) s0).state.current_brightness_is_on = true := by
  obtain ⟨_, hst⟩ := runLoop_append timeout bon before (q :: after) s0 hrun
  rw [hst]
  have hqa : (q :: after).Pairwise (fun a b => a.current_time ≤ b.current_time) :=
    (List.pairwise_append.mp hclock).2.1
  have hle := clock_le_getLastD after q hqa
  have hpos : 0 < timeout := by
    have := hle q (List.mem_cons_self q after)
    omega
  obtain ⟨w, hbody⟩ :=
    loopBody_qualifying timeout bon (runLoop timeout bon before s0).state q hq hpos
  simp only [runLoop, hbody]
  refine runLoop_keeps_on timeout bon q.current_time after _ rfl (le_refl _) ?_
  intro u hu
  have h1 := hle u (List.mem_cons_of_mem q hu)
  have h2 := (List.pairwise_cons.mp hqa).1 u hu
  exact ⟨h2, by omega⟩

theorem recent_key_event_keeps_on_witness :
    (runLoop 5 100
      ([idleTick 1, interruptedTick 3] ++ latePressTick :: [releaseTick, idleTick 9, idleTick 11])
      { current_brightness_is_on := false, last_key_activity_time := 0 }
    ).state.current_brightness_is_on = true :=
  recent_key_event_keeps_on 5 100 { current_brightness_is_on := false, last_key_activity_time := 0 }
    [idleTick 1, interruptedTick 3] latePressTick [releaseTick, idleTick 9, idleTick 11]
    (by decide) (by decide) (by decide) (by decide)

end AutoKbbl
